import Mathlib

/-!
Shallow embedding of the Delivery Generation, Assignment & Routing Engine of
the milk-subscription backend (`src/api/src/services/delivery.service.ts`,
`src/api/src/services/deliveryBoy.service.ts`, and the subscription service).

Modelling conventions:
* Calendar dates are integers counting days; `setHours(0,0,0,0)` midnight
  normalisation makes a JS `Date` equivalent to such a day number, and the
  millisecond arithmetic `Math.floor((target - start) / 86400000)` on two
  normalised dates is exactly day-number subtraction.
* The Prisma store is a record of lists; `findFirst` / `findMany` return the
  first match / all matches in list order.
* Prisma string `contains` (used for area pincode lookups on the comma-joined
  `pincodes` column) is substring containment, embedded as an executable
  substring test on the character lists.
* Fallible service functions return `Except ApiErr`; `ApiError.notFound` /
  `forbidden` / `badRequest` with their error codes become constructors.
-/

deriving instance DecidableEq for Except

namespace Milk

/-- Delivery status enum (Prisma `PENDING/IN_PROGRESS/DELIVERED/FAILED`). -/
inductive DStatus where
  | pending
  | inProgress
  | delivered
  | failed
deriving DecidableEq

/-- Subscription status enum (Prisma `ACTIVE/PAUSED/CANCELLED`). -/
inductive SubStatus where
  | active
  | paused
  | cancelled
deriving DecidableEq

/-- Geocoordinates of an address (`latitude`/`longitude`). -/
structure Coordinates where
  lat : ℚ
  lng : ℚ
deriving DecidableEq

/-- The part of an address the engine reads: `pincode` and the optional
coordinates (absent when either raw column is null or `0`, mirroring the
truthiness test in `transformDelivery`, but `optimizeRoute` re-checks
truthiness itself, so we keep the raw optional pair). -/
structure Address where
  pincode : String
  coordinates : Option Coordinates
deriving DecidableEq

/-- Subscription row (fields the engine reads). `pauseStart`/`pauseEnd` are
nullable columns. -/
structure Subscription where
  id : ℕ
  customerId : ℕ
  status : SubStatus
  startDate : ℤ
  frequency : String
  pauseStart : Option ℤ
  pauseEnd : Option ℤ
  address : Address
deriving DecidableEq

/-- Coverage area row: `pincodes` is stored as one comma-joined string. -/
structure Area where
  id : ℕ
  pincodes : String
deriving DecidableEq

/-- Delivery agent row (`DeliveryBoy`). -/
structure DeliveryBoy where
  id : ℕ
  areaId : ℕ
  isActive : Bool
deriving DecidableEq

/-- Delivery (obligation) row. -/
structure DeliveryRow where
  id : ℕ
  subscriptionId : ℕ
  deliveryBoyId : Option ℕ
  deliveryDate : ℤ
  status : DStatus
  proofUrl : Option String
  proofType : Option String
  failureReason : Option String
  failureNotes : Option String
  completedAt : Option ℤ
deriving DecidableEq

/-- The backing store: one list per table, plus a fresh-id counter for
created delivery rows. -/
structure Store where
  subscriptions : List Subscription
  areas : List Area
  deliveryBoys : List DeliveryBoy
  deliveries : List DeliveryRow
  nextId : ℕ
deriving DecidableEq

/-- Errors thrown via `ApiError.notFound/forbidden/badRequest(code, msg)`;
the string is the error code. -/
inductive ApiErr where
  | notFound (code : String)
  | forbidden (code : String)
  | badRequest (code : String)
deriving DecidableEq

/-- `frequency.toUpperCase()` character by character (kernel-evaluable
form of `String.toUpper`). -/
def toUpperStr (s : String) : String :=
  String.mk (s.data.map Char.toUpper)

/-- `shouldDeliverOnDate(startDate, targetDate, frequency)`: midnight
normalisation is the identity on day numbers; `daysDiff` is the integer
difference, non-negative past the `target < start` early return. -/
def shouldDeliverOnDate (startDate targetDate : ℤ) (frequency : String) : Bool :=
  if targetDate < startDate then false
  else
    let daysDiff := targetDate - startDate
    if toUpperStr frequency = "DAILY" then true
    else if toUpperStr frequency = "ALTERNATE" then daysDiff % 2 = 0
    else if toUpperStr frequency = "WEEKLY" then daysDiff % 7 = 0
    else false

/-- `isDateInPausePeriod(date, pauseStart, pauseEnd)` from the subscription
service: false unless both bounds are present; inclusive comparison of
midnight-normalised dates. -/
def isDateInPausePeriod (date : ℤ) (pauseStart pauseEnd : Option ℤ) : Bool :=
  match pauseStart, pauseEnd with
  | some ps, some pe => ps ≤ date && date ≤ pe
  | _, _ => false

/-- The needle is an initial segment of the haystack. -/
def startsWithChars : List Char → List Char → Bool
  | [], _ => true
  | _ :: _, [] => false
  | c :: cs, d :: ds => c == d && startsWithChars cs ds

/-- The needle occurs contiguously somewhere in the haystack. -/
def containsSub (needle : List Char) : List Char → Bool
  | [] => needle.isEmpty
  | d :: ds => startsWithChars needle (d :: ds) || containsSub needle ds

/-- Prisma `pincodes: { contains: pin }` on the comma-joined column:
substring containment. -/
def areaCoversSubstr (a : Area) (pin : String) : Bool :=
  containsSub pin.data a.pincodes.data

/-- The relation filter `area: { pincodes: { contains: pin } }` on a
delivery-boy row: the boy's area (looked up by foreign key) matches. -/
def boyCovers (s : Store) (pin : String) (b : DeliveryBoy) : Bool :=
  match s.areas.find? (fun a => a.id == b.areaId) with
  | some a => areaCoversSubstr a pin
  | none => false

/-- `findDeliveryBoyForPincode(pincode)`: first active boy whose area's
pincode string contains the pincode. -/
def findDeliveryBoyForPincode (pin : String) (s : Store) : Option DeliveryBoy :=
  s.deliveryBoys.find? (fun b => b.isActive && boyCovers s pin b)

/-- The subscription qualifies for generation on `date`: the `findMany`
filter (`status: 'ACTIVE', startDate ≤ date`) together with the in-loop
`shouldDeliverOnDate` check. -/
def qualifies (date : ℤ) (sub : Subscription) : Bool :=
  sub.status == SubStatus.active && sub.startDate ≤ date &&
    shouldDeliverOnDate sub.startDate date sub.frequency

/-- The `findFirst` existence check for an obligation of a
(subscription, date) pair. -/
def hasDeliveryFor (ds : List DeliveryRow) (subId : ℕ) (date : ℤ) : Bool :=
  (ds.find? (fun d => d.subscriptionId == subId && d.deliveryDate == date)).isSome

/-- One iteration of the generation loop: skip unless the subscription
qualifies and no obligation exists yet; otherwise resolve an agent by the
address pincode and create a pending row. -/
def genStep (date : ℤ) (acc : ℕ × Store) (sub : Subscription) : ℕ × Store :=
  let (count, s) := acc
  if qualifies date sub then
    if hasDeliveryFor s.deliveries sub.id date then (count, s)
    else
      let boy := findDeliveryBoyForPincode sub.address.pincode s
      let row : DeliveryRow :=
        { id := s.nextId
          subscriptionId := sub.id
          deliveryBoyId := boy.map (fun b => b.id)
          deliveryDate := date
          status := DStatus.pending
          proofUrl := none
          proofType := none
          failureReason := none
          failureNotes := none
          completedAt := none }
      (count + 1,
        { s with deliveries := s.deliveries ++ [row], nextId := s.nextId + 1 })
  else (count, s)

/-- `generateDeliveriesForDate(date)`: loop over the subscriptions,
returning the created count and the updated store. -/
def generateDeliveriesForDate (date : ℤ) (s : Store) : ℕ × Store :=
  s.subscriptions.foldl (genStep date) (0, s)

/-- The `FAILURE_REASONS` record of codes and descriptions. -/
def FAILURE_REASONS : List (String × String) :=
  [("CUSTOMER_UNAVAILABLE", "Customer was not available"),
   ("WRONG_ADDRESS", "Address was incorrect or not found"),
   ("CUSTOMER_REFUSED", "Customer refused delivery"),
   ("ACCESS_DENIED", "Could not access the location"),
   ("WEATHER_CONDITIONS", "Delivery not possible due to weather"),
   ("VEHICLE_BREAKDOWN", "Delivery vehicle breakdown"),
   ("OTHER", "Other reason")]

/-- `getFailureReasonCodes()`: the catalog as (code, description) entries. -/
def getFailureReasonCodes : List (String × String) :=
  FAILURE_REASONS

/-- JS `FAILURE_REASONS[reason.code]` truthiness: the code is a key of the
record (all descriptions are non-empty strings). -/
def isValidFailureCode (code : String) : Bool :=
  (FAILURE_REASONS.find? (fun p => p.1 == code)).isSome

/-- `DeliveryProof` input: `{ type, url }` (the captured timestamp is set
server-side). JS `!proof` models the whole argument being absent, so the
service parameter is `Option DeliveryProof`. -/
structure DeliveryProof where
  ptype : String
  url : String
deriving DecidableEq

/-- `FailureReason` input: `{ code, notes? }`. -/
structure FailureReasonInput where
  code : String
  notes : Option String
deriving DecidableEq

/-- Replace the delivery row with the given id (`prisma.delivery.update`). -/
def updateRow (ds : List DeliveryRow) (id : ℕ) (f : DeliveryRow → DeliveryRow) :
    List DeliveryRow :=
  ds.map (fun r => if r.id == id then f r else r)

/-- `findUnique` on the delivery table. -/
def findRow (s : Store) (id : ℕ) : Option DeliveryRow :=
  s.deliveries.find? (fun d => d.id == id)

/-- `markDeliveryCompleted(deliveryId, deliveryBoyId, proof)`; `now` is the
`new Date()` completion timestamp. Guards in source order: not found,
agent mismatch (`delivery.deliveryBoyId !== deliveryBoyId`, which also
fires when the row is unassigned), already delivered, missing/empty proof
URL (`!proof || !proof.url`). -/
def markDeliveryCompleted (deliveryId deliveryBoyId : ℕ)
    (proof : Option DeliveryProof) (now : ℤ) (s : Store) :
    Except ApiErr (Store × DeliveryRow) :=
  match findRow s deliveryId with
  | none => .error (.notFound "DEL_001")
  | some delivery =>
    if delivery.deliveryBoyId ≠ some deliveryBoyId then
      .error (.forbidden "DEL_005")
    else if delivery.status = DStatus.delivered then
      .error (.badRequest "DEL_002")
    else
      match proof with
      | none => .error (.badRequest "DEL_003")
      | some p =>
        if p.url = "" then .error (.badRequest "DEL_003")
        else
          let upd : DeliveryRow → DeliveryRow := fun r =>
            { r with status := DStatus.delivered
                     proofUrl := some p.url
                     proofType := some p.ptype
                     completedAt := some now }
          .ok ({ s with deliveries := updateRow s.deliveries deliveryId upd },
               upd delivery)

/-- `markDeliveryFailed(deliveryId, deliveryBoyId, reason)`. Guards in
source order: not found, agent mismatch, already delivered-or-failed,
missing reason code (`!reason || !reason.code`), invalid reason code. -/
def markDeliveryFailed (deliveryId deliveryBoyId : ℕ)
    (reason : Option FailureReasonInput) (now : ℤ) (s : Store) :
    Except ApiErr (Store × DeliveryRow) :=
  match findRow s deliveryId with
  | none => .error (.notFound "DEL_001")
  | some delivery =>
    if delivery.deliveryBoyId ≠ some deliveryBoyId then
      .error (.forbidden "DEL_005")
    else if delivery.status = DStatus.delivered ∨ delivery.status = DStatus.failed then
      .error (.badRequest "DEL_006")
    else
      match reason with
      | none => .error (.badRequest "DEL_004")
      | some rc =>
        if rc.code = "" then .error (.badRequest "DEL_004")
        else if ¬ isValidFailureCode rc.code then .error (.badRequest "DEL_007")
        else
          let upd : DeliveryRow → DeliveryRow := fun r =>
            { r with status := DStatus.failed
                     failureReason := some rc.code
                     failureNotes := rc.notes
                     completedAt := some now }
          .ok ({ s with deliveries := updateRow s.deliveries deliveryId upd },
               upd delivery)

/-- `startDelivery(deliveryId, deliveryBoyId)`. Guards in source order:
not found, agent mismatch, status not pending. -/
def startDelivery (deliveryId deliveryBoyId : ℕ) (s : Store) :
    Except ApiErr (Store × DeliveryRow) :=
  match findRow s deliveryId with
  | none => .error (.notFound "DEL_001")
  | some delivery =>
    if delivery.deliveryBoyId ≠ some deliveryBoyId then
      .error (.forbidden "DEL_005")
    else if delivery.status ≠ DStatus.pending then
      .error (.badRequest "DEL_008")
    else
      let upd : DeliveryRow → DeliveryRow := fun r =>
        { r with status := DStatus.inProgress }
      .ok ({ s with deliveries := updateRow s.deliveries deliveryId upd },
           upd delivery)

/-- The pincode of a delivery's subscription address (the non-nullable
`subscription.address` join, totalised with `""` for rows whose foreign
key is dangling, which cannot happen in a well-formed store). -/
def pincodeOf (s : Store) (d : DeliveryRow) : String :=
  match s.subscriptions.find? (fun sub => sub.id == d.subscriptionId) with
  | some sub => sub.address.pincode
  | none => ""

/-- `trim` on a character list: strip whitespace from both ends. -/
def trimChars (l : List Char) : List Char :=
  ((l.dropWhile Char.isWhitespace).reverse.dropWhile Char.isWhitespace).reverse

/-- `split(',')` on a character list, accumulating the current (reversed)
segment. -/
def splitCommaAux : List Char → List Char → List (List Char)
  | [], acc => [acc.reverse]
  | c :: rest, acc =>
    if c = ',' then acc.reverse :: splitCommaAux rest []
    else splitCommaAux rest (c :: acc)

/-- The exact pincode list of an area: `pincodes.split(',').map(trim)`. -/
def areaPincodeList (a : Area) : List String :=
  (splitCommaAux a.pincodes.data []).map (fun cs => String.mk (trimChars cs))

/-- The re-resolution query of the cascade: first active boy other than the
reassigning one whose area's pincode string contains the address pincode. -/
def findOtherBoyForPincode (excludeId : ℕ) (pin : String) (s : Store) :
    Option DeliveryBoy :=
  s.deliveryBoys.find? (fun b => b.id ≠ excludeId && b.isActive && boyCovers s pin b)

/-- The new agent assignment the cascade loop writes for one delivery:
the covering boy's id on success, `null` when none is found. -/
def resolveFor (s : Store) (boyId : ℕ) (d : DeliveryRow) : Option ℕ :=
  (findOtherBoyForPincode boyId (pincodeOf s d) s).map (fun b => b.id)

/-- One iteration of the cascade loop: update the row's agent and count it
(both branches of the source increment `reassignedCount`). -/
def reassignStep (s : Store) (boyId : ℕ) (acc : List DeliveryRow × ℕ)
    (d : DeliveryRow) : List DeliveryRow × ℕ :=
  (updateRow acc.1 d.id (fun r => { r with deliveryBoyId := resolveFor s boyId d }),
   acc.2 + 1)

/-- `reassignDeliveryBoyArea(deliveryBoyId, newAreaId)`: validate boy and
area, no-op on same area, collect the boy's pending deliveries, keep those
whose pincode is in the new area's (trimmed, exact) pincode list,
re-resolve the rest, then update the boy's area. -/
def reassignDeliveryBoyArea (boyId newAreaId : ℕ) (s : Store) :
    Except ApiErr (Store × DeliveryBoy × ℕ) :=
  match s.deliveryBoys.find? (fun b => b.id == boyId) with
  | none => .error (.notFound "DBOY_001")
  | some existing =>
    match s.areas.find? (fun a => a.id == newAreaId) with
    | none => .error (.badRequest "DBOY_002")
    | some newArea =>
      if existing.areaId = newAreaId then .ok (s, existing, 0)
      else
        let pending := s.deliveries.filter
          (fun d => d.deliveryBoyId == some boyId && d.status == DStatus.pending)
        let newPins := areaPincodeList newArea
        let toReassign := pending.filter (fun d => !(newPins.contains (pincodeOf s d)))
        let (ds, cnt) := toReassign.foldl (reassignStep s boyId) (s.deliveries, 0)
        let boys := s.deliveryBoys.map
          (fun b => if b.id == boyId then { b with areaId := newAreaId } else b)
        .ok ({ s with deliveries := ds, deliveryBoys := boys },
             { existing with areaId := newAreaId }, cnt)

/-- `deactivateDeliveryBoy` unassigns the boy's pending deliveries and
clears the active flag (modelled for completeness of the lifecycle). -/
def deactivateDeliveryBoy (boyId : ℕ) (s : Store) : Except ApiErr Store :=
  match s.deliveryBoys.find? (fun b => b.id == boyId) with
  | none => .error (.notFound "DBOY_001")
  | some _ =>
    let ds := s.deliveries.map (fun d =>
      if d.deliveryBoyId == some boyId && d.status == DStatus.pending then
        { d with deliveryBoyId := none }
      else d)
    let boys := s.deliveryBoys.map
      (fun b => if b.id == boyId then { b with isActive := false } else b)
    .ok { s with deliveries := ds, deliveryBoys := boys }

/-- A delivery as the route optimizer sees it (the transformed shared
`Delivery`): an id plus the address. -/
structure RDelivery where
  id : ℕ
  address : Address
deriving DecidableEq

/-- The geocoding test of `optimizeRoute`:
`d.address.coordinates?.lat && d.address.coordinates?.lng` — JS truthiness,
so a coordinate equal to `0` on either axis fails the test. -/
def hasValidCoords (d : RDelivery) : Bool :=
  match d.address.coordinates with
  | some c => c.lat ≠ 0 && c.lng ≠ 0
  | none => false

/-- Coordinates under the source's non-null assertion
(`address.coordinates!`); the default is never read on the geocoded
sublist the tour runs over. -/
def coordsOrZero (d : RDelivery) : Coordinates :=
  d.address.coordinates.getD ⟨0, 0⟩

/-- The inner scan of the nearest-neighbour loop: starting from
`nearestDist = Infinity, nearestIdx = 0`, keep the index of the strictly
smallest distance seen so far. `calculateDistance` (haversine over real
trigonometry) enters only through the `dist` parameter; no claim depends
on its values. -/
def nearestIdx (dist : Coordinates → Coordinates → ℚ) (last : RDelivery)
    (remaining : List RDelivery) : ℕ :=
  (remaining.enum.foldl
    (fun acc p =>
      let d : WithTop ℚ := (dist (coordsOrZero last) (coordsOrZero p.2) : ℚ)
      if d < acc.2 then (p.1, d) else acc)
    ((0 : ℕ), (⊤ : WithTop ℚ))).1

/-- The body of the nearest-neighbour `while` loop: remove the nearest
remaining delivery (by splice index) and append it to the tour. The inner
bound test is always true (`nearestIdx` scans the enumerated list; see
`nearestIdx_lt`); it is carried only so the selected element can be read
off. -/
def nnLoop (dist : Coordinates → Coordinates → ℚ) (last : RDelivery)
    (remaining : List RDelivery) : List RDelivery :=
  if remaining = [] then []
  else
    let i := nearestIdx dist last remaining
    if hi : i < remaining.length then
      let next := remaining.get ⟨i, hi⟩
      next :: nnLoop dist next (remaining.eraseIdx i)
    else []
termination_by remaining.length
decreasing_by
  rw [List.length_eraseIdx_of_lt hi]
  omega

/-- `optimizeRoute(deliveries)`: return short inputs as-is, partition by
the truthiness geocoding test, run the greedy tour on the geocoded part
starting from its first element, then append the non-geocoded part. -/
def optimizeRoute (dist : Coordinates → Coordinates → ℚ)
    (deliveries : List RDelivery) : List RDelivery :=
  if deliveries.length ≤ 1 then deliveries
  else
    let withCoords := deliveries.filter hasValidCoords
    let withoutCoords := deliveries.filter (fun d => ! hasValidCoords d)
    if withCoords.length ≤ 1 then withCoords ++ withoutCoords
    else
      match withCoords with
      | [] => withoutCoords
      | first :: rest => (first :: nnLoop dist first rest) ++ withoutCoords

/-- The per-pair contribution of `calculateTotalDistance`: the distance
when both stops have a coordinates object (object truthiness: presence),
the fixed fallback `1` otherwise. -/
def pairDist (dist : Coordinates → Coordinates → ℚ) (a b : RDelivery) : ℚ :=
  match a.address.coordinates, b.address.coordinates with
  | some ca, some cb => dist ca cb
  | _, _ => 1

/-- `calculateTotalDistance(deliveries)`: zero for fewer than two stops,
else the sum over consecutive pairs. -/
def calculateTotalDistance (dist : Coordinates → Coordinates → ℚ) :
    List RDelivery → ℚ
  | [] => 0
  | [_] => 0
  | a :: b :: rest => pairDist dist a b + calculateTotalDistance dist (b :: rest)

/-- `pauseSubscription(subscriptionId, customerId, pauseData)`; `today` is
the midnight-normalised current date. Sets status `PAUSED` and the
(normalised) window after validating it. -/
def pauseSubscription (subscriptionId customerId : ℕ)
    (pauseStart pauseEnd : ℤ) (today : ℤ) (s : Store) :
    Except ApiErr Store :=
  match s.subscriptions.find?
      (fun sub => sub.id == subscriptionId && sub.customerId == customerId) with
  | none => .error (.notFound "SUB_005")
  | some sub =>
    if sub.status = SubStatus.cancelled then .error (.badRequest "SUB_008")
    else if sub.status = SubStatus.paused then .error (.badRequest "SUB_009")
    else if pauseEnd ≤ pauseStart then .error (.badRequest "SUB_004")
    else if pauseStart < today then .error (.badRequest "SUB_010")
    else
      .ok { s with subscriptions := s.subscriptions.map (fun x =>
        if x.id == subscriptionId then
          { x with status := SubStatus.paused
                   pauseStart := some pauseStart
                   pauseEnd := some pauseEnd }
        else x) }

/-- `resumeSubscription(subscriptionId, customerId)`: back to `ACTIVE`
with the pause window cleared. -/
def resumeSubscription (subscriptionId customerId : ℕ) (s : Store) :
    Except ApiErr Store :=
  match s.subscriptions.find?
      (fun sub => sub.id == subscriptionId && sub.customerId == customerId) with
  | none => .error (.notFound "SUB_005")
  | some sub =>
    if sub.status ≠ SubStatus.paused then .error (.badRequest "SUB_011")
    else
      .ok { s with subscriptions := s.subscriptions.map (fun x =>
        if x.id == subscriptionId then
          { x with status := SubStatus.active
                   pauseStart := none
                   pauseEnd := none }
        else x) }

/-- All obligations of a (subscription, date) pair present in the store. -/
def deliveriesFor (s : Store) (subId : ℕ) (date : ℤ) : List DeliveryRow :=
  s.deliveries.filter (fun d => d.subscriptionId == subId && d.deliveryDate == date)

/-- Fixture: address used by the concrete scenarios. -/
def scnAddress : Address := { pincode := "110003", coordinates := none }

/-- Fixture: the §8 scenario subscription — started 2024-01-01 (day number
19723), every-other-day recurrence, active, no pause. -/
def scnSub : Subscription :=
  { id := 10, customerId := 1, status := SubStatus.active, startDate := 19723,
    frequency := "ALTERNATE", pauseStart := none, pauseEnd := none,
    address := scnAddress }

/-- Fixture: store holding only the scenario subscription. -/
def scnStore : Store :=
  { subscriptions := [scnSub], areas := [], deliveryBoys := [], deliveries := [],
    nextId := 100 }

/-- Fixture: a paused subscription with a pause window around day 19725. -/
def pausedSub : Subscription :=
  { id := 11, customerId := 1, status := SubStatus.paused, startDate := 19000,
    frequency := "DAILY", pauseStart := some 19720, pauseEnd := some 19730,
    address := scnAddress }

/-- Fixture: store holding the paused subscription. -/
def pausedStore : Store :=
  { subscriptions := [pausedSub], areas := [], deliveryBoys := [], deliveries := [],
    nextId := 100 }

/-- Fixture: an obligation of the scenario subscription already existing
for day 19723. -/
def scnRow : DeliveryRow :=
  { id := 50, subscriptionId := 10, deliveryBoyId := none, deliveryDate := 19723,
    status := DStatus.pending, proofUrl := none, proofType := none,
    failureReason := none, failureNotes := none, completedAt := none }

/-- Fixture: the scenario store with that obligation already present. -/
def scnStoreExisting : Store :=
  { scnStore with deliveries := [scnRow] }

/-- Fixture: a valid completion proof. -/
def proofOk : DeliveryProof := { ptype := "photo", url := "https://cdn.example/p1.jpg" }

/-- Fixture: an obligation assigned to agent 7, in `FAILED` status. -/
def lcRowFailed : DeliveryRow :=
  { id := 200, subscriptionId := 10, deliveryBoyId := some 7, deliveryDate := 19723,
    status := DStatus.failed, proofUrl := none, proofType := none,
    failureReason := some "OTHER", failureNotes := none, completedAt := some 90 }

/-- Fixture: store holding the failed obligation. -/
def lcStoreFailed : Store :=
  { subscriptions := [scnSub], areas := [], deliveryBoys := [], deliveries := [lcRowFailed],
    nextId := 300 }

/-- Fixture: an obligation assigned to agent 7, in `DELIVERED` status. -/
def lcRowDelivered : DeliveryRow :=
  { lcRowFailed with
      id := 201
      status := DStatus.delivered
      proofUrl := some "https://cdn.example/p0.jpg"
      proofType := some "photo"
      failureReason := none }

/-- Fixture: store holding the delivered obligation. -/
def lcStoreDelivered : Store :=
  { lcStoreFailed with deliveries := [lcRowDelivered] }

/-- Fixture: an unassigned pending obligation. -/
def lcRowUnassigned : DeliveryRow :=
  { lcRowFailed with
      id := 202
      status := DStatus.pending
      deliveryBoyId := none
      failureReason := none
      completedAt := none }

/-- Fixture: store holding the unassigned pending obligation. -/
def lcStoreUnassigned : Store :=
  { lcStoreFailed with deliveries := [lcRowUnassigned] }

/-- Fixture: an area whose only stored pincode is `110001`. -/
def c8Area : Area := { id := 1, pincodes := "110001" }

/-- Fixture: an active agent assigned to that area. -/
def c8Boy : DeliveryBoy := { id := 1, areaId := 1, isActive := true }

/-- Fixture: store with only that agent and area. -/
def c8Store : Store :=
  { subscriptions := [], areas := [c8Area], deliveryBoys := [c8Boy],
    deliveries := [], nextId := 0 }

/-- Fixture: subscription whose address pincode `1000` is a proper
substring of `110001` but a member of no area's pincode set. -/
def c2Sub : Subscription :=
  { id := 20, customerId := 2, status := SubStatus.active, startDate := 0,
    frequency := "DAILY", pauseStart := none, pauseEnd := none,
    address := { pincode := "1000", coordinates := none } }

/-- Fixture: the reassigning agent's old area. -/
def c2AreaOld : Area := { id := 1, pincodes := "999999" }

/-- Fixture: the other agent's area, pincode set {`310005`}, whose joined
string contains `1000` as a substring. -/
def c2AreaCover : Area := { id := 2, pincodes := "310005" }

/-- Fixture: the reassignment target area, pincode set {`888888`}. -/
def c2AreaNew : Area := { id := 3, pincodes := "888888" }

/-- Fixture: the agent being moved to a new area. -/
def c2Boy1 : DeliveryBoy := { id := 1, areaId := 1, isActive := true }

/-- Fixture: the other active agent. -/
def c2Boy2 : DeliveryBoy := { id := 2, areaId := 2, isActive := true }

/-- Fixture: the pending obligation assigned to agent 1, address pincode
`1000`. -/
def c2Row : DeliveryRow :=
  { id := 100, subscriptionId := 20, deliveryBoyId := some 1, deliveryDate := 5,
    status := DStatus.pending, proofUrl := none, proofType := none,
    failureReason := none, failureNotes := none, completedAt := none }

/-- Fixture: the cascade counterexample store. -/
def c2Store : Store :=
  { subscriptions := [c2Sub], areas := [c2AreaOld, c2AreaCover, c2AreaNew],
    deliveryBoys := [c2Boy1, c2Boy2], deliveries := [c2Row], nextId := 0 }

/-- Fixture: a geocoded route stop. -/
def rdA : RDelivery :=
  { id := 1, address := { pincode := "110001", coordinates := some ⟨1, 1⟩ } }

/-- Fixture: a stop at latitude `0` — a valid location that the truthiness
test classifies as non-geocoded. -/
def rdB : RDelivery :=
  { id := 2, address := { pincode := "110002", coordinates := some ⟨0, 5⟩ } }

/-- Fixture: another geocoded stop. -/
def rdC : RDelivery :=
  { id := 3, address := { pincode := "110003", coordinates := some ⟨2, 2⟩ } }

/-- Fixture: the squared-Euclidean stand-in distance used to instantiate
route witnesses (the claims hold for every distance function). -/
def sqDist (a b : Coordinates) : ℚ :=
  (a.lat - b.lat) * (a.lat - b.lat) + (a.lng - b.lng) * (a.lng - b.lng)

/-- `adminService.updateCustomerSubscription(customerId, subscriptionId,
{ quantity?, frequency?, status? })` (admin.service.ts, routed at
`PUT /api/admin/customers/:id/subscription/:subscriptionId`): finds the
subscription by id and owner and writes only the spread fields —
`...(data.frequency && { frequency })`, `...(data.status && { status })`.
The pause window columns are never touched, so setting status `ACTIVE`
on a paused subscription leaves its `pauseStart`/`pauseEnd` intact. The
service throws a plain `Error` when the subscription is missing; the
quantity field does not reach the subscription row. -/
def updateCustomerSubscription (customerId subscriptionId : ℕ)
    (frequency : Option String) (status : Option SubStatus) (s : Store) :
    Except ApiErr Store :=
  match s.subscriptions.find?
      (fun sub => sub.id == subscriptionId && sub.customerId == customerId) with
  | none => .error (.notFound "SUB_NOT_FOUND")
  | some _ =>
    .ok { s with subscriptions := s.subscriptions.map (fun x =>
      if x.id == subscriptionId then
        { x with
            frequency := match frequency with
              | some f => if f = "" then x.frequency else f
              | none => x.frequency
            status := status.getD x.status }
      else x) }

theorem hasDeliveryFor_iff (ds : List DeliveryRow) (subId : ℕ) (date : ℤ) :
    hasDeliveryFor ds subId date = true ↔
      ∃ d ∈ ds, d.subscriptionId = subId ∧ d.deliveryDate = date := by
  simp [hasDeliveryFor, List.find?_isSome]

theorem hasDeliveryFor_append (ds ext : List DeliveryRow) (subId : ℕ) (date : ℤ)
    (h : hasDeliveryFor ds subId date = true) :
    hasDeliveryFor (ds ++ ext) subId date = true := by
  rw [hasDeliveryFor_iff] at h ⊢
  obtain ⟨d, hd, hprop⟩ := h
  exact ⟨d, List.mem_append_left _ hd, hprop⟩

/-- Characterisation of one generation step: the non-delivery tables are
untouched and deliveries grow by an extension whose rows all belong to the
processed subscription, carry the target date and `PENDING` status, and
were only created because the subscription qualifies and had no obligation
for the date yet. -/
theorem genStep_spec (date : ℤ) (a : ℕ × Store) (sub : Subscription) :
    ((genStep date a sub).2.subscriptions = a.2.subscriptions ∧
     (genStep date a sub).2.areas = a.2.areas ∧
     (genStep date a sub).2.deliveryBoys = a.2.deliveryBoys) ∧
    ∃ ext, (genStep date a sub).2.deliveries = a.2.deliveries ++ ext ∧
      ∀ r ∈ ext, r.subscriptionId = sub.id ∧ r.deliveryDate = date ∧
        r.status = DStatus.pending ∧ qualifies date sub = true ∧
        hasDeliveryFor a.2.deliveries sub.id date = false := by
  obtain ⟨c, s⟩ := a
  by_cases hq : qualifies date sub = true
  · by_cases hex : hasDeliveryFor s.deliveries sub.id date = true
    · refine ⟨⟨?_, ?_, ?_⟩, [], ?_, ?_⟩ <;> simp [genStep, hq, hex]
    · refine ⟨⟨?_, ?_, ?_⟩, ?_⟩
      · simp [genStep, hq, hex]
      · simp [genStep, hq, hex]
      · simp [genStep, hq, hex]
      · refine ⟨[⟨s.nextId, sub.id,
          (findDeliveryBoyForPincode sub.address.pincode s).map (fun b => b.id),
          date, DStatus.pending, none, none, none, none, none⟩], ?_, ?_⟩
        · simp [genStep, hq, hex]
        · intro r hr
          rw [List.mem_singleton] at hr
          subst hr
          simp_all
  · refine ⟨⟨?_, ?_, ?_⟩, [], ?_, ?_⟩ <;> simp [genStep, hq]

/-- Characterisation of the whole generation fold, by induction on the
subscription list. -/
theorem genFold_spec (date : ℤ) (subs : List Subscription) (a : ℕ × Store) :
    ((subs.foldl (genStep date) a).2.subscriptions = a.2.subscriptions ∧
     (subs.foldl (genStep date) a).2.areas = a.2.areas ∧
     (subs.foldl (genStep date) a).2.deliveryBoys = a.2.deliveryBoys) ∧
    ∃ ext, (subs.foldl (genStep date) a).2.deliveries = a.2.deliveries ++ ext ∧
      ∀ r ∈ ext, ∃ sub ∈ subs, r.subscriptionId = sub.id ∧ r.deliveryDate = date ∧
        r.status = DStatus.pending ∧ qualifies date sub = true ∧
        hasDeliveryFor a.2.deliveries sub.id date = false := by
  induction subs generalizing a with
  | nil => exact ⟨⟨rfl, rfl, rfl⟩, [], by simp, by simp⟩
  | cons sub rest ih =>
    obtain ⟨⟨hs1, hs2, hs3⟩, ext1, hext1, hprop1⟩ := genStep_spec date a sub
    obtain ⟨⟨ht1, ht2, ht3⟩, ext2, hext2, hprop2⟩ := ih (genStep date a sub)
    refine ⟨⟨?_, ?_, ?_⟩, ext1 ++ ext2, ?_, ?_⟩
    · rw [List.foldl_cons, ht1, hs1]
    · rw [List.foldl_cons, ht2, hs2]
    · rw [List.foldl_cons, ht3, hs3]
    · rw [List.foldl_cons, hext2, hext1, List.append_assoc]
    · intro r hr
      rcases List.mem_append.mp hr with h1 | h2
      · obtain ⟨hid, hdate, hst, hq, hnone⟩ := hprop1 r h1
        exact ⟨sub, List.mem_cons_self sub rest, hid, hdate, hst, hq, hnone⟩
      · obtain ⟨sub', hmem, hid, hdate, hst, hq, hnone⟩ := hprop2 r h2
        refine ⟨sub', List.mem_cons_of_mem sub hmem, hid, hdate, hst, hq, ?_⟩
        obtain ⟨_, extA, hA, _⟩ := genStep_spec date a sub
        rw [hA] at hnone
        by_contra hcontra
        rw [hasDeliveryFor_append _ extA _ _
          (by revert hcontra; cases hasDeliveryFor a.2.deliveries sub'.id date <;> simp)]
          at hnone
        exact Bool.true_eq_false.mp hnone

/-- After a generation step, the processed subscription (if it qualifies)
is covered: an obligation for the (subscription, date) pair exists. -/
theorem genStep_covered (date : ℤ) (a : ℕ × Store) (sub : Subscription)
    (hq : qualifies date sub = true) :
    hasDeliveryFor (genStep date a sub).2.deliveries sub.id date = true := by
  obtain ⟨c, s⟩ := a
  by_cases hex : hasDeliveryFor s.deliveries sub.id date = true
  · simp [genStep, hq, hex]
  · rw [hasDeliveryFor_iff]
    refine ⟨⟨s.nextId, sub.id,
      (findDeliveryBoyForPincode sub.address.pincode s).map (fun b => b.id),
      date, DStatus.pending, none, none, none, none, none⟩, ?_, rfl, rfl⟩
    simp [genStep, hq, hex]

/-- After the generation fold, every qualifying subscription of the
processed list is covered. -/
theorem genFold_covered (date : ℤ) (subs : List Subscription) (a : ℕ × Store) :
    ∀ sub ∈ subs, qualifies date sub = true →
      hasDeliveryFor (subs.foldl (genStep date) a).2.deliveries sub.id date = true := by
  induction subs generalizing a with
  | nil => intro sub h; exact absurd h (List.not_mem_nil sub)
  | cons head rest ih =>
    intro sub hmem hq
    rw [List.foldl_cons]
    rcases List.mem_cons.mp hmem with heq | htail
    · subst heq
      obtain ⟨_, ext, hext, _⟩ := genFold_spec date rest (genStep date a sub)
      rw [hext]
      exact hasDeliveryFor_append _ _ _ _ (genStep_covered date a sub hq)
    · exact ih (genStep date a head) sub htail hq

/-- A generation step over an already-covered (or non-qualifying)
subscription is a no-op. -/
theorem genStep_id (date : ℤ) (a : ℕ × Store) (sub : Subscription)
    (h : qualifies date sub = true → hasDeliveryFor a.2.deliveries sub.id date = true) :
    genStep date a sub = a := by
  obtain ⟨c, s⟩ := a
  by_cases hq : qualifies date sub = true
  · simp [genStep, hq, h hq]
  · simp [genStep, hq]

/-- The generation fold is the identity when every qualifying subscription
is already covered. -/
theorem genFold_id (date : ℤ) (subs : List Subscription) (a : ℕ × Store)
    (h : ∀ sub ∈ subs, qualifies date sub = true →
      hasDeliveryFor a.2.deliveries sub.id date = true) :
    subs.foldl (genStep date) a = a := by
  induction subs with
  | nil => rfl
  | cons head rest ih =>
    rw [List.foldl_cons,
      genStep_id date a head (h head (List.mem_cons_self head rest))]
    exact ih (fun sub hm => h sub (List.mem_cons_of_mem head hm))

/-- C4: `generateForDate` is idempotent. If an obligation already exists
for a (subscription, date) pair, re-running the generation for that date
leaves that pair's obligations untouched; and running the operation twice
in a row creates nothing the second time and leaves the store of the first
run unchanged. -/
theorem generateForDate_idempotent (date : ℤ) (s : Store) (subId : ℕ) :
    (hasDeliveryFor s.deliveries subId date = true →
      deliveriesFor (generateDeliveriesForDate date s).2 subId date =
        deliveriesFor s subId date) ∧
    (generateDeliveriesForDate date (generateDeliveriesForDate date s).2).1 = 0 ∧
    (generateDeliveriesForDate date (generateDeliveriesForDate date s).2).2 =
      (generateDeliveriesForDate date s).2 := by
  obtain ⟨⟨hsubs, _, _⟩, ext, hext, hprop⟩ :=
    genFold_spec date s.subscriptions (0, s)
  refine ⟨?_, ?_⟩
  · intro hex
    unfold deliveriesFor
    rw [show (generateDeliveriesForDate date s).2.deliveries =
        s.deliveries ++ ext from hext, List.filter_append]
    have hnone : ext.filter
        (fun d => d.subscriptionId == subId && d.deliveryDate == date) = [] := by
      rw [List.filter_eq_nil_iff]
      intro r hr
      obtain ⟨sub', _, hid, hdate, _, _, hcov⟩ := hprop r hr
      intro hmatch
      rw [Bool.and_eq_true, beq_iff_eq, beq_iff_eq] at hmatch
      rw [hid] at hmatch
      rw [hmatch.1] at hcov
      rw [hex] at hcov
      exact Bool.true_eq_false.mp hcov
    rw [hnone, List.append_nil]
  · have hcover : ∀ sub ∈ (generateDeliveriesForDate date s).2.subscriptions,
        qualifies date sub = true →
        hasDeliveryFor (generateDeliveriesForDate date s).2.deliveries sub.id date
          = true := by
      unfold generateDeliveriesForDate
      rw [hsubs]
      exact genFold_covered date s.subscriptions (0, s)
    have := genFold_id date (generateDeliveriesForDate date s).2.subscriptions
      (0, (generateDeliveriesForDate date s).2) hcover
    unfold generateDeliveriesForDate
    unfold generateDeliveriesForDate at this
    rw [this]
    exact ⟨rfl, rfl⟩

/-- C4 witness: with an obligation for (subscription 10, day 19723)
already present, re-running generation for that day leaves the pair's
obligations unchanged, and a repeated run is a no-op. -/
theorem generateForDate_idempotent_witness :
    deliveriesFor (generateDeliveriesForDate 19723 scnStoreExisting).2 10 19723 =
      deliveriesFor scnStoreExisting 10 19723 ∧
    (generateDeliveriesForDate 19723
      (generateDeliveriesForDate 19723 scnStoreExisting).2).1 = 0 :=
  ⟨(generateForDate_idempotent 19723 scnStoreExisting 10).1 (by decide),
   (generateForDate_idempotent 19723 scnStoreExisting 10).2.1⟩

/-- C1 counterexample: the claim fails on a reachable state. Starting
from the paused subscription 11 (window [19720, 19730]), the admin
update `{ status: 'ACTIVE' }` reactivates it without clearing the
window; generation for day 19725 — inside the window, inclusive,
midnight-normalised — then creates an obligation for it: the generation
loop never consults the pause window. -/
theorem generateForDate_pause_window_counterexample :
    isDateInPausePeriod 19725 pausedSub.pauseStart pausedSub.pauseEnd = true ∧
    ∃ s₁, updateCustomerSubscription 1 11 none (some SubStatus.active) pausedStore
        = .ok s₁ ∧
      (∃ sub ∈ s₁.subscriptions, sub.id = 11 ∧ sub.status = SubStatus.active ∧
        sub.pauseStart = pausedSub.pauseStart ∧
        sub.pauseEnd = pausedSub.pauseEnd ∧
        isDateInPausePeriod 19725 sub.pauseStart sub.pauseEnd = true) ∧
      (generateDeliveriesForDate 19725 s₁).1 = 1 ∧
      ∃ r ∈ (generateDeliveriesForDate 19725 s₁).2.deliveries,
        r.subscriptionId = 11 ∧ r.deliveryDate = 19725 := by
  refine ⟨by decide, { pausedStore with subscriptions :=
      [{ pausedSub with status := SubStatus.active }] },
    by decide, by decide, by decide, by decide⟩

/-- C1 amended: the protection against in-window generation comes from
the subscription *status* alone, not from the window. A subscription
whose status is not `ACTIVE` — in particular a paused one, which is the
state `pauseSubscription` produces together with the window — never
receives an obligation, on any date and under any recurrence rule; but
the window itself is never consulted, so an `ACTIVE` subscription with a
stale window (reachable via the admin `updateCustomerSubscription`, which
sets status without clearing the window) is generated for in-window
dates (see the counterexample). Subscription ids are unique, as the
primary key guarantees. -/
theorem generateForDate_requires_active (s : Store) (date : ℤ)
    (sub : Subscription)
    (hids : (s.subscriptions.map (fun x => x.id)).Nodup)
    (hsub : sub ∈ s.subscriptions)
    (hstatus : sub.status ≠ SubStatus.active) :
    deliveriesFor (generateDeliveriesForDate date s).2 sub.id date =
      deliveriesFor s sub.id date ∧
    ∀ r ∈ (generateDeliveriesForDate date s).2.deliveries,
      r ∉ s.deliveries → r.subscriptionId ≠ sub.id := by
  obtain ⟨_, ext, hext, hprop⟩ := genFold_spec date s.subscriptions (0, s)
  have hextid : ∀ r ∈ ext, r.subscriptionId ≠ sub.id := by
    intro r hr hid
    obtain ⟨sub', hmem', hid', _, _, hq, _⟩ := hprop r hr
    have hactive : sub'.status = SubStatus.active := by
      unfold qualifies at hq
      rw [Bool.and_eq_true, Bool.and_eq_true, beq_iff_eq] at hq
      exact hq.1.1
    have hsame : sub' = sub := by
      have := List.inj_on_of_nodup_map hids hmem' hsub
      exact this (by rw [← hid', hid])
    subst hsame
    exact hstatus hactive
  refine ⟨?_, ?_⟩
  · unfold deliveriesFor
    rw [show (generateDeliveriesForDate date s).2.deliveries =
        s.deliveries ++ ext from hext, List.filter_append]
    have hnone : ext.filter
        (fun d => d.subscriptionId == sub.id && d.deliveryDate == date) = [] := by
      rw [List.filter_eq_nil_iff]
      intro r hr hmatch
      rw [Bool.and_eq_true, beq_iff_eq] at hmatch
      exact hextid r hr hmatch.1
    rw [hnone, List.append_nil]
  · intro r hr hnotin
    rw [show (generateDeliveriesForDate date s).2.deliveries =
        s.deliveries ++ ext from hext] at hr
    rcases List.mem_append.mp hr with h | h
    · exact absurd h hnotin
    · exact hextid r h

/-- C1 witness: generation on day 19725 creates nothing for subscription
11 while its status is still `PAUSED`. -/
theorem generateForDate_requires_active_witness :
    deliveriesFor (generateDeliveriesForDate 19725 pausedStore).2 11 19725 =
      deliveriesFor pausedStore 11 19725 :=
  (generateForDate_requires_active pausedStore 19725 pausedSub (by decide)
    (by decide) (by decide)).1

/-- C5: the recurrence predicate over midnight-normalised day numbers —
daily: every date on or after the start; every-other-day (`ALTERNATE`):
even day offset; weekly: offset divisible by 7; dates before the start are
never delivery days. The §8 scenario: an active every-other-day
subscription started 2024-01-01 (day 19723) yields generation counts
1, 0, 1 on 2024-01-01/02/03. -/
theorem shouldDeliver_recurrence :
    (∀ s t : ℤ, s ≤ t → shouldDeliverOnDate s t "DAILY" = true) ∧
    (∀ s t : ℤ, s ≤ t →
      (shouldDeliverOnDate s t "ALTERNATE" = true ↔ (t - s) % 2 = 0)) ∧
    (∀ s t : ℤ, s ≤ t →
      (shouldDeliverOnDate s t "WEEKLY" = true ↔ (t - s) % 7 = 0)) ∧
    (∀ (s t : ℤ) (f : String), t < s → shouldDeliverOnDate s t f = false) ∧
    ((generateDeliveriesForDate 19723 scnStore).1 = 1 ∧
     (generateDeliveriesForDate 19724 (generateDeliveriesForDate 19723 scnStore).2).1
       = 0 ∧
     (generateDeliveriesForDate 19725 (generateDeliveriesForDate 19724
       (generateDeliveriesForDate 19723 scnStore).2).2).1 = 1) := by
  have hD : toUpperStr "DAILY" = "DAILY" := by decide
  have hA : toUpperStr "ALTERNATE" = "ALTERNATE" := by decide
  have hW : toUpperStr "WEEKLY" = "WEEKLY" := by decide
  have hAD : ("ALTERNATE" : String) ≠ "DAILY" := by decide
  have hWD : ("WEEKLY" : String) ≠ "DAILY" := by decide
  have hWA : ("WEEKLY" : String) ≠ "ALTERNATE" := by decide
  refine ⟨?_, ?_, ?_, ?_, by decide, by decide, by decide⟩
  · intro s t h
    simp [shouldDeliverOnDate, hD, not_lt.mpr h]
  · intro s t h
    simp [shouldDeliverOnDate, hA, hAD, not_lt.mpr h]
  · intro s t h
    simp [shouldDeliverOnDate, hW, hWD, hWA, not_lt.mpr h]
  · intro s t f h
    simp [shouldDeliverOnDate, h]

/-- C5 witness: day 19727 is an even offset from 19723, so the
every-other-day rule fires; day 19724 (odd offset) does not. -/
theorem shouldDeliver_recurrence_witness :
    shouldDeliverOnDate 19723 19727 "ALTERNATE" = true ∧
    shouldDeliverOnDate 19724 19723 "WEEKLY" = false :=
  ⟨(shouldDeliver_recurrence.2.1 19723 19727 (by decide)).mpr (by decide),
   shouldDeliver_recurrence.2.2.2.1 19724 19723 "WEEKLY" (by decide)⟩

/-- C3 counterexample: the obligation 200 is already terminal (`FAILED`),
yet `markDeliveryCompleted` succeeds on it and moves it to `DELIVERED` —
a second lifecycle call on an already-terminal obligation is not rejected,
and the `failed` state is left. -/
theorem terminal_monotonic_counterexample :
    lcRowFailed ∈ lcStoreFailed.deliveries ∧
    lcRowFailed.status = DStatus.failed ∧
    markDeliveryCompleted 200 7 (some proofOk) 99 lcStoreFailed =
      Except.ok
        ({ lcStoreFailed with deliveries := [{ lcRowFailed with
            status := DStatus.delivered,
            proofUrl := some "https://cdn.example/p1.jpg",
            proofType := some "photo",
            completedAt := some 99 }] },
         { lcRowFailed with
            status := DStatus.delivered,
            proofUrl := some "https://cdn.example/p1.jpg",
            proofType := some "photo",
            completedAt := some 99 }) := by
  decide

/-- C3 amended: only `delivered` is fully terminal. On a `DELIVERED`
obligation both `complete` and `fail` always error; on a terminal
obligation (`DELIVERED` or `FAILED`) `fail` always errors; but `complete`
does not guard the `FAILED` state (see the counterexample), so a failed
obligation can still become delivered. -/
theorem terminal_guards (s : Store) (id boyId : ℕ) (proof : Option DeliveryProof)
    (reason : Option FailureReasonInput) (now : ℤ) (r : DeliveryRow)
    (hfind : findRow s id = some r) :
    (r.status = DStatus.delivered →
      (∃ e, markDeliveryCompleted id boyId proof now s = .error e) ∧
      (∃ e, markDeliveryFailed id boyId reason now s = .error e)) ∧
    ((r.status = DStatus.delivered ∨ r.status = DStatus.failed) →
      ∃ e, markDeliveryFailed id boyId reason now s = .error e) := by
  have hfail : (r.status = DStatus.delivered ∨ r.status = DStatus.failed) →
      ∃ e, markDeliveryFailed id boyId reason now s = .error e := by
    intro hterm
    unfold markDeliveryFailed
    rw [hfind]
    by_cases hauth : r.deliveryBoyId = some boyId
    · simp [hauth, hterm]
    · simp [hauth]
  refine ⟨fun hdel => ⟨?_, hfail (Or.inl hdel)⟩, hfail⟩
  unfold markDeliveryCompleted
  rw [hfind]
  by_cases hauth : r.deliveryBoyId = some boyId
  · simp [hauth, hdel]
  · simp [hauth]

/-- C3 witness: on the delivered obligation 201 both lifecycle finishers
error. -/
theorem terminal_guards_witness :
    (∃ e, markDeliveryCompleted 201 7 (some proofOk) 99 lcStoreDelivered
      = .error e) ∧
    (∃ e, markDeliveryFailed 201 7 (some ⟨"OTHER", none⟩) 99 lcStoreDelivered
      = .error e) :=
  (terminal_guards lcStoreDelivered 201 7 (some proofOk)
    (some ⟨"OTHER", none⟩) 99 lcRowDelivered (by decide)).1 (by decide)

/-- C7: `markDeliveryCompleted` succeeds only with a present, non-empty
proof URL, storing the proof and the completion timestamp; with the
earlier guards passed, an absent/empty proof yields `DEL_003`
(MissingProof). `markDeliveryFailed` succeeds only with a present reason
code from the fixed seven-entry catalog, storing reason, notes and the
completion timestamp; an absent/empty code yields `DEL_004`
(MissingReason) and an unknown code yields `DEL_007` (InvalidReasonCode). -/
theorem proof_reason_validation (s : Store) (id boyId : ℕ)
    (proof : Option DeliveryProof) (reason : Option FailureReasonInput)
    (now : ℤ) (r : DeliveryRow) (hfind : findRow s id = some r) :
    (∀ s' out, markDeliveryCompleted id boyId proof now s = .ok (s', out) →
      ∃ p, proof = some p ∧ p.url ≠ "" ∧ out.status = DStatus.delivered ∧
        out.proofUrl = some p.url ∧ out.proofType = some p.ptype ∧
        out.completedAt = some now) ∧
    (r.deliveryBoyId = some boyId → r.status ≠ DStatus.delivered →
      (proof = none ∨ ∃ p, proof = some p ∧ p.url = "") →
      markDeliveryCompleted id boyId proof now s = .error (.badRequest "DEL_003")) ∧
    (∀ s' out, markDeliveryFailed id boyId reason now s = .ok (s', out) →
      ∃ rc, reason = some rc ∧ rc.code ≠ "" ∧ isValidFailureCode rc.code = true ∧
        out.status = DStatus.failed ∧ out.failureReason = some rc.code ∧
        out.failureNotes = rc.notes ∧ out.completedAt = some now) ∧
    (r.deliveryBoyId = some boyId →
      ¬(r.status = DStatus.delivered ∨ r.status = DStatus.failed) →
      (reason = none ∨ ∃ rc, reason = some rc ∧ rc.code = "") →
      markDeliveryFailed id boyId reason now s = .error (.badRequest "DEL_004")) ∧
    (r.deliveryBoyId = some boyId →
      ¬(r.status = DStatus.delivered ∨ r.status = DStatus.failed) →
      ∀ rc, reason = some rc → rc.code ≠ "" → isValidFailureCode rc.code = false →
      markDeliveryFailed id boyId reason now s = .error (.badRequest "DEL_007")) ∧
    FAILURE_REASONS.length = 7 ∧ getFailureReasonCodes = FAILURE_REASONS := by
  refine ⟨?_, ?_, ?_, ?_, ?_, rfl, rfl⟩
  · intro s' out h
    unfold markDeliveryCompleted at h
    rw [hfind] at h
    by_cases hauth : r.deliveryBoyId = some boyId
    · by_cases hdel : r.status = DStatus.delivered
      · simp [hauth, hdel] at h
      · cases proof with
        | none => simp [hauth, hdel] at h
        | some p =>
          by_cases hurl : p.url = ""
          · simp [hauth, hdel, hurl] at h
          · simp only [hauth, hdel, hurl] at h
            simp at h
            refine ⟨p, rfl, hurl, ?_⟩
            rw [← h.2]
            exact ⟨rfl, rfl, rfl, rfl⟩
    · simp [hauth] at h
  · intro hauth hdel hmiss
    unfold markDeliveryCompleted
    rw [hfind]
    rcases hmiss with hnone | ⟨p, hp, hurl⟩
    · simp [hauth, hdel, hnone]
    · simp [hauth, hdel, hp, hurl]
  · intro s' out h
    unfold markDeliveryFailed at h
    rw [hfind] at h
    by_cases hauth : r.deliveryBoyId = some boyId
    · by_cases hterm : r.status = DStatus.delivered ∨ r.status = DStatus.failed
      · simp [hauth, hterm] at h
      · cases reason with
        | none => simp [hauth, hterm] at h
        | some rc =>
          by_cases hcode : rc.code = ""
          · simp [hauth, hterm, hcode] at h
          · by_cases hvalid : isValidFailureCode rc.code = true
            · simp only [hauth, hterm, hcode, hvalid] at h
              simp at h
              refine ⟨rc, rfl, hcode, hvalid, ?_⟩
              rw [← h.2]
              exact ⟨rfl, rfl, rfl, rfl⟩
            · simp [hauth, hterm, hcode, hvalid] at h
    · simp [hauth] at h
  · intro hauth hterm hmiss
    unfold markDeliveryFailed
    rw [hfind]
    rcases hmiss with hnone | ⟨rc, hrc, hcode⟩
    · simp [hauth, hterm, hnone]
    · simp [hauth, hterm, hrc, hcode]
  · intro hauth hterm rc hrc hcode hvalid
    unfold markDeliveryFailed
    rw [hfind]
    simp [hauth, hterm, hrc, hcode, hvalid]

/-- C7 witness: on a pending assigned obligation, completing with an empty
proof URL yields `DEL_003` and failing with an unknown code yields
`DEL_007`. -/
theorem proof_reason_validation_witness :
    markDeliveryCompleted 200 7 (some ⟨"photo", ""⟩) 99
      { lcStoreFailed with deliveries :=
          [{ lcRowFailed with status := DStatus.pending }] }
      = .error (.badRequest "DEL_003") ∧
    markDeliveryFailed 200 7 (some ⟨"NOT_A_CODE", none⟩) 99
      { lcStoreFailed with deliveries :=
          [{ lcRowFailed with status := DStatus.pending }] }
      = .error (.badRequest "DEL_007") := by
  refine ⟨?_, ?_⟩
  · exact (proof_reason_validation _ 200 7 (some ⟨"photo", ""⟩)
      (some ⟨"NOT_A_CODE", none⟩) 99 { lcRowFailed with status := DStatus.pending }
      (by decide)).2.1 (by decide) (by decide) (Or.inr ⟨_, rfl, rfl⟩)
  · exact (proof_reason_validation _ 200 7 (some ⟨"photo", ""⟩)
      (some ⟨"NOT_A_CODE", none⟩) 99 { lcRowFailed with status := DStatus.pending }
      (by decide)).2.2.2.2.1 (by decide) (by decide) _ rfl (by decide) (by decide)

/-- C10: the three lifecycle operations check their guards in the same
fixed order — not-found first, then authorization (which also rejects any
caller on an unassigned obligation), then the status guard, and input
validation only last; in particular `complete` with an empty proof on an
already-delivered obligation yields the terminal error `DEL_002`, not
`DEL_003`. -/
theorem lifecycle_guard_order (s : Store) (id boyId : ℕ)
    (proof : Option DeliveryProof) (reason : Option FailureReasonInput)
    (now : ℤ) :
    (findRow s id = none →
      markDeliveryCompleted id boyId proof now s = .error (.notFound "DEL_001") ∧
      markDeliveryFailed id boyId reason now s = .error (.notFound "DEL_001") ∧
      startDelivery id boyId s = .error (.notFound "DEL_001")) ∧
    (∀ r, findRow s id = some r → r.deliveryBoyId ≠ some boyId →
      markDeliveryCompleted id boyId proof now s = .error (.forbidden "DEL_005") ∧
      markDeliveryFailed id boyId reason now s = .error (.forbidden "DEL_005") ∧
      startDelivery id boyId s = .error (.forbidden "DEL_005")) ∧
    (∀ r, findRow s id = some r → r.deliveryBoyId = none →
      markDeliveryCompleted id boyId proof now s = .error (.forbidden "DEL_005") ∧
      markDeliveryFailed id boyId reason now s = .error (.forbidden "DEL_005") ∧
      startDelivery id boyId s = .error (.forbidden "DEL_005")) ∧
    (∀ r, findRow s id = some r → r.deliveryBoyId = some boyId →
      r.status = DStatus.delivered →
      markDeliveryCompleted id boyId proof now s = .error (.badRequest "DEL_002")) ∧
    (∀ r, findRow s id = some r → r.deliveryBoyId = some boyId →
      r.status = DStatus.delivered ∨ r.status = DStatus.failed →
      markDeliveryFailed id boyId reason now s = .error (.badRequest "DEL_006")) ∧
    (∀ r, findRow s id = some r → r.deliveryBoyId = some boyId →
      r.status ≠ DStatus.pending →
      startDelivery id boyId s = .error (.badRequest "DEL_008")) := by
  refine ⟨?_, ?_, ?_, ?_, ?_, ?_⟩
  · intro hnone
    refine ⟨?_, ?_, ?_⟩ <;>
      simp [markDeliveryCompleted, markDeliveryFailed, startDelivery, hnone]
  · intro r hfind hauth
    refine ⟨?_, ?_, ?_⟩
    · unfold markDeliveryCompleted
      rw [hfind]
      simp [hauth]
    · unfold markDeliveryFailed
      rw [hfind]
      simp [hauth]
    · unfold startDelivery
      rw [hfind]
      simp [hauth]
  · intro r hfind hun
    have hauth : r.deliveryBoyId ≠ some boyId := by rw [hun]; exact fun h => by cases h
    refine ⟨?_, ?_, ?_⟩
    · unfold markDeliveryCompleted
      rw [hfind]
      simp [hauth]
    · unfold markDeliveryFailed
      rw [hfind]
      simp [hauth]
    · unfold startDelivery
      rw [hfind]
      simp [hauth]
  · intro r hfind hauth hdel
    unfold markDeliveryCompleted
    rw [hfind]
    simp [hauth, hdel]
  · intro r hfind hauth hterm
    unfold markDeliveryFailed
    rw [hfind]
    simp [hauth, hterm]
  · intro r hfind hauth hpend
    unfold startDelivery
    rw [hfind]
    simp [hauth, hpend]

/-- C10 witness: completing the delivered obligation 201 with an empty
proof yields the terminal error `DEL_002`, and starting the unassigned
obligation 202 yields `DEL_005`. -/
theorem lifecycle_guard_order_witness :
    markDeliveryCompleted 201 7 (some ⟨"photo", ""⟩) 99 lcStoreDelivered
      = .error (.badRequest "DEL_002") ∧
    startDelivery 202 7 lcStoreUnassigned = .error (.forbidden "DEL_005") :=
  ⟨(lifecycle_guard_order lcStoreDelivered 201 7 (some ⟨"photo", ""⟩) none 99
      ).2.2.2.1 lcRowDelivered (by decide) (by decide) (by decide),
   ((lifecycle_guard_order lcStoreUnassigned 202 7 none none 99
      ).2.2.1 lcRowUnassigned (by decide) (by decide)).2.2⟩

/-- C8 counterexample: the query pincode `1000` is not a member of any
area's pincode set (`{110001}` is the only one), yet
`findDeliveryBoyForPincode` returns agent 1, because Prisma `contains` is
substring matching on the comma-joined column and `1000` occurs inside
`110001`. -/
theorem findAgent_substring_counterexample :
    findDeliveryBoyForPincode "1000" c8Store = some c8Boy ∧
    "1000" ∉ areaPincodeList c8Area ∧
    c8Store.areas = [c8Area] := by
  refine ⟨by decide, by decide, rfl⟩

/-- C8 amended: any returned agent is one of the stored agents, is
active, and its area's comma-joined pincode string contains the query as
a substring (exact set membership only when no pincode of the area
strictly extends the query across the stored string); the query reads the
store and returns without modifying it. -/
theorem findAgent_contract (s : Store) (pin : String) (b : DeliveryBoy)
    (h : findDeliveryBoyForPincode pin s = some b) :
    b ∈ s.deliveryBoys ∧ b.isActive = true ∧
    ∃ a, s.areas.find? (fun x => x.id == b.areaId) = some a ∧
      containsSub pin.data a.pincodes.data = true := by
  have hmem : b ∈ s.deliveryBoys := List.mem_of_find?_eq_some h
  have hpred := List.find?_some h
  rw [Bool.and_eq_true] at hpred
  refine ⟨hmem, hpred.1, ?_⟩
  have hcov := hpred.2
  unfold boyCovers at hcov
  cases harea : s.areas.find? (fun a => a.id == b.areaId) with
  | none => rw [harea] at hcov; exact absurd hcov (by simp)
  | some a =>
    rw [harea] at hcov
    exact ⟨a, rfl, hcov⟩

/-- C8 witness: querying the exact stored pincode `110001` returns the
active agent 1 whose area string contains it. -/
theorem findAgent_contract_witness :
    c8Boy ∈ c8Store.deliveryBoys ∧ c8Boy.isActive = true ∧
    ∃ a, c8Store.areas.find? (fun x => x.id == c8Boy.areaId) = some a ∧
      containsSub "110001".data a.pincodes.data = true :=
  findAgent_contract c8Store "110001" c8Boy (by decide)

/-- The sequential cascade loop equals a single map over the delivery
table when the processed rows have pairwise-distinct ids: each row is
updated at most once, to the agent resolved for its matching entry. -/
theorem reassignFold_map (s : Store) (boyId : ℕ) (L : List DeliveryRow)
    (hnodup : (L.map (fun d => d.id)).Nodup) (cur : List DeliveryRow) (n : ℕ) :
    L.foldl (reassignStep s boyId) (cur, n) =
      (cur.map (fun r => match L.find? (fun d => d.id == r.id) with
        | some d => { r with deliveryBoyId := resolveFor s boyId d }
        | none => r), n + L.length) := by
  induction L generalizing cur n with
  | nil =>
    simp only [List.foldl_nil, List.find?_nil, List.length_nil, Nat.add_zero]
    rw [show cur.map (fun r =>
        match (none : Option DeliveryRow) with
        | some d => { r with deliveryBoyId := resolveFor s boyId d }
        | none => r) = cur.map (fun r => r) from rfl, List.map_id']
  | cons d L ih =>
    have hd : d.id ∉ L.map (fun x => x.id) := by
      rw [List.map_cons] at hnodup
      exact (List.nodup_cons.mp hnodup).1
    have htail : (L.map (fun x => x.id)).Nodup := by
      rw [List.map_cons] at hnodup
      exact (List.nodup_cons.mp hnodup).2
    rw [List.foldl_cons,
      show reassignStep s boyId (cur, n) d =
        (updateRow cur d.id
          (fun r => { r with deliveryBoyId := resolveFor s boyId d }), n + 1)
        from rfl,
      ih htail, updateRow, List.map_map]
    refine congrArg₂ Prod.mk (List.map_congr_left fun r _ => ?_)
      (by rw [List.length_cons]; omega)
    by_cases hid : r.id = d.id
    · have hL : L.find? (fun x => x.id == r.id) = none := by
        rw [List.find?_eq_none]
        intro x hx
        simp only [beq_iff_eq]
        intro hxr
        refine hd ?_
        have hmm : x.id ∈ L.map (fun x => x.id) := List.mem_map_of_mem _ hx
        rwa [hxr, hid] at hmm
      simp only [Function.comp]
      rw [if_pos (by simp [hid])]
      have : (d :: L).find? (fun x => x.id == r.id) = some d := by
        rw [List.find?_cons_of_pos _ (by simp [hid])]
      rw [this, hL]
    · simp only [Function.comp]
      rw [if_neg (by simp [hid])]
      have : (d :: L).find? (fun x => x.id == r.id) =
          L.find? (fun x => x.id == r.id) := by
        rw [List.find?_cons_of_neg _ (by simp; exact fun h => hid h.symm)]
      rw [this]

/-- C2 amended: after a successful `reassignAgentArea` to a genuinely new
area (with unique delivery-row ids, as the primary key guarantees):
the delivery table becomes a pointwise map in which exactly the pending
rows assigned to the agent whose address pincode is *not* an exact member
of the new area's trimmed pincode list get the re-resolved agent (all
other rows — non-pending, other agents', or kept because the new area
lists their pincode — are untouched); the re-resolved agent is `none`
when no other active agent's area *string-contains* the pincode, and
otherwise the first other active agent whose comma-joined area pincode
string contains the pincode as a substring (not necessarily as a set
member); and the agent's stored area is updated. -/
theorem reassign_cascade (s : Store) (boyId newAreaId : ℕ)
    (hnodup : (s.deliveries.map (fun d => d.id)).Nodup)
    (s' : Store) (boy' : DeliveryBoy) (cnt : ℕ)
    (existing : DeliveryBoy) (newArea : Area)
    (hex : s.deliveryBoys.find? (fun b => b.id == boyId) = some existing)
    (harea : s.areas.find? (fun a => a.id == newAreaId) = some newArea)
    (hdiff : existing.areaId ≠ newAreaId)
    (hok : reassignDeliveryBoyArea boyId newAreaId s = .ok (s', boy', cnt)) :
    s'.deliveries = s.deliveries.map (fun r =>
      if r.deliveryBoyId == some boyId && r.status == DStatus.pending &&
          !(areaPincodeList newArea).contains (pincodeOf s r) then
        { r with deliveryBoyId := resolveFor s boyId r }
      else r) ∧
    (∀ r ∈ s.deliveries,
      (∃ b ∈ s.deliveryBoys, resolveFor s boyId r = some b.id ∧
        b.id ≠ boyId ∧ b.isActive = true ∧
        boyCovers s (pincodeOf s r) b = true) ∨
      (resolveFor s boyId r = none ∧
        ∀ b ∈ s.deliveryBoys, b.id ≠ boyId → b.isActive = true →
          boyCovers s (pincodeOf s r) b = false)) ∧
    s'.deliveryBoys = s.deliveryBoys.map
      (fun b => if b.id == boyId then { b with areaId := newAreaId } else b) ∧
    s'.subscriptions = s.subscriptions := by
  have hresolve : ∀ r ∈ s.deliveries,
      (∃ b ∈ s.deliveryBoys, resolveFor s boyId r = some b.id ∧
        b.id ≠ boyId ∧ b.isActive = true ∧
        boyCovers s (pincodeOf s r) b = true) ∨
      (resolveFor s boyId r = none ∧
        ∀ b ∈ s.deliveryBoys, b.id ≠ boyId → b.isActive = true →
          boyCovers s (pincodeOf s r) b = false) := by
    intro r _
    cases hfind : findOtherBoyForPincode boyId (pincodeOf s r) s with
    | some b =>
      left
      have hpred := List.find?_some hfind
      rw [Bool.and_eq_true, Bool.and_eq_true] at hpred
      refine ⟨b, List.mem_of_find?_eq_some hfind, ?_, ?_, hpred.1.2, hpred.2⟩
      · simp [resolveFor, hfind]
      · simpa using hpred.1.1
    | none =>
      right
      refine ⟨by simp [resolveFor, hfind], ?_⟩
      intro b hb hid hact
      have := List.find?_eq_none.mp hfind b hb
      rw [Bool.and_eq_true, Bool.and_eq_true] at this
      by_contra hcov
      exact this ⟨⟨by simpa using hid, hact⟩, by
        cases h : boyCovers s (pincodeOf s r) b
        · exact absurd h hcov
        · exact rfl⟩
  unfold reassignDeliveryBoyArea at hok
  rw [hex, harea] at hok
  simp only [if_neg hdiff] at hok
  rw [reassignFold_map s boyId _ ?hnd s.deliveries 0] at hok
  case hnd =>
    refine List.Nodup.sublist (List.Sublist.map _ ?_) hnodup
    exact (List.filter_sublist _).trans (List.filter_sublist _)
  simp only [Except.ok.injEq, Prod.mk.injEq] at hok
  obtain ⟨hs', _, _⟩ := hok
  refine ⟨?_, hresolve, ?_, ?_⟩
  · rw [← hs']
    refine List.map_congr_left fun r hr => ?_
    set pend := s.deliveries.filter
      (fun d => d.deliveryBoyId == some boyId && d.status == DStatus.pending)
      with hpend
    set toRe := pend.filter
      (fun d => !(areaPincodeList newArea).contains (pincodeOf s d)) with htoRe
    by_cases hcond : (r.deliveryBoyId == some boyId && r.status == DStatus.pending &&
        !(areaPincodeList newArea).contains (pincodeOf s r)) = true
    · have hrmem : r ∈ toRe := by
        rw [htoRe, List.mem_filter, hpend, List.mem_filter]
        rw [Bool.and_eq_true, Bool.and_eq_true] at hcond
        exact ⟨⟨hr, by rw [Bool.and_eq_true]; exact hcond.1⟩, hcond.2⟩
      have hfound : toRe.find? (fun d => d.id == r.id) = some r := by
        cases hf : toRe.find? (fun d => d.id == r.id) with
        | none =>
          exact absurd (List.find?_eq_none.mp hf r hrmem) (by simp)
        | some d =>
          have hdmem : d ∈ s.deliveries := by
            have : toRe.Sublist s.deliveries :=
              (List.filter_sublist _).trans (List.filter_sublist _)
            exact this.mem (List.mem_of_find?_eq_some hf)
          have hdid : d.id = r.id := by
            have := List.find?_some hf
            simpa using this
          have : d = r := List.inj_on_of_nodup_map hnodup hdmem hr hdid
          rw [this]
      rw [hfound, if_pos hcond]
    · have hnotmem : toRe.find? (fun d => d.id == r.id) = none := by
        rw [List.find?_eq_none]
        intro d hd
        simp only [beq_iff_eq]
        intro hdid
        have hdmem : d ∈ s.deliveries := by
          have : toRe.Sublist s.deliveries :=
            (List.filter_sublist _).trans (List.filter_sublist _)
          exact this.mem hd
        have : d = r := List.inj_on_of_nodup_map hnodup hdmem hr hdid
        subst this
        rw [htoRe, List.mem_filter, hpend, List.mem_filter] at hd
        exact hcond (by
          rw [Bool.and_eq_true]
          exact ⟨hd.1.2, hd.2⟩)
      rw [hnotmem, if_neg hcond]
  · rw [← hs']
  · rw [← hs']

/-- C2 counterexample: moving agent 1 to area 3 re-resolves the pending
obligation 100 (address pincode `1000`, not in area 3's set) to agent 2 —
but `1000` is *not* a member of agent 2's coverage set `{310005}`; it only
occurs as a substring of `310005`. The obligation ends assigned to an
agent whose coverage area excludes its delivery address, and it was not
set to unassigned. -/
theorem reassign_cascade_counterexample :
    (∃ s' boy' cnt, reassignDeliveryBoyArea 1 3 c2Store = .ok (s', boy', cnt) ∧
      s'.deliveries = [{ c2Row with deliveryBoyId := some 2 }]) ∧
    c2Boy2.id = 2 ∧ c2Boy2.areaId = 2 ∧ c2Store.areas.head? = some c2AreaOld ∧
    "1000" ∉ areaPincodeList c2AreaCover := by
  refine ⟨⟨{ c2Store with
      deliveries := [{ c2Row with deliveryBoyId := some 2 }]
      deliveryBoys := [{ c2Boy1 with areaId := 3 }, c2Boy2] },
    { c2Boy1 with areaId := 3 }, 1, by decide, rfl⟩, rfl, rfl, rfl, by decide⟩

/-- C2 witness: the cascade applied to the counterexample store satisfies
the amended characterisation. -/
theorem reassign_cascade_witness :
    ∃ s' : Store,
      s'.deliveries = c2Store.deliveries.map (fun r =>
        if r.deliveryBoyId == some 1 && r.status == DStatus.pending &&
            !(areaPincodeList c2AreaNew).contains (pincodeOf c2Store r) then
          { r with deliveryBoyId := resolveFor c2Store 1 r }
        else r) ∧
      s'.deliveryBoys = c2Store.deliveryBoys.map
        (fun b => if b.id == 1 then { b with areaId := 3 } else b) := by
  obtain ⟨h1, _, h3, _⟩ := reassign_cascade c2Store 1 3 (by decide)
    ({ c2Store with
        deliveries := [{ c2Row with deliveryBoyId := some 2 }]
        deliveryBoys := [{ c2Boy1 with areaId := 3 }, c2Boy2] })
    ({ c2Boy1 with areaId := 3 }) 1 c2Boy1 c2AreaNew
    (by decide) (by decide) (by decide) (by decide)
  exact ⟨_, h1, h3⟩

/-- Every scan fold result is either the initial accumulator or carries
the index of some enumerated entry. -/
theorem nearestScan_cases (dist : Coordinates → Coordinates → ℚ)
    (last : RDelivery) (l : List (ℕ × RDelivery)) (acc : ℕ × WithTop ℚ) :
    (l.foldl
      (fun acc p =>
        let d : WithTop ℚ := (dist (coordsOrZero last) (coordsOrZero p.2) : ℚ)
        if d < acc.2 then (p.1, d) else acc) acc) = acc ∨
    ∃ p ∈ l, (l.foldl
      (fun acc p =>
        let d : WithTop ℚ := (dist (coordsOrZero last) (coordsOrZero p.2) : ℚ)
        if d < acc.2 then (p.1, d) else acc) acc).1 = p.1 := by
  induction l generalizing acc with
  | nil => exact Or.inl rfl
  | cons q l ih =>
    simp only [List.foldl_cons]
    rcases ih (if ((dist (coordsOrZero last) (coordsOrZero q.2) : ℚ) : WithTop ℚ) <
        acc.2 then (q.1, ((dist (coordsOrZero last) (coordsOrZero q.2) : ℚ) : WithTop ℚ))
        else acc) with h | ⟨p, hp, heq⟩
    · rw [h]
      split
      · exact Or.inr ⟨q, List.mem_cons_self q l, rfl⟩
      · exact Or.inl rfl
    · exact Or.inr ⟨p, List.mem_cons_of_mem q hp, heq⟩

/-- The spliced index is in range whenever deliveries remain (the source's
`nearestDist = Infinity` start guarantees the first scan entry is taken). -/
theorem nearestIdx_lt (dist : Coordinates → Coordinates → ℚ) (last : RDelivery)
    (remaining : List RDelivery) (h : remaining ≠ []) :
    nearestIdx dist last remaining < remaining.length := by
  unfold nearestIdx
  rcases nearestScan_cases dist last remaining.enum ((0 : ℕ), (⊤ : WithTop ℚ)) with
    heq | ⟨p, hp, hidx⟩
  · rw [heq]
    exact List.length_pos.mpr h
  · rw [hidx]
    exact List.fst_lt_of_mem_enum hp

/-- The nearest-neighbour loop emits a permutation of the remaining
deliveries. -/
theorem nnLoop_perm (dist : Coordinates → Coordinates → ℚ) :
    ∀ (n : ℕ) (last : RDelivery) (remaining : List RDelivery),
      remaining.length ≤ n → (nnLoop dist last remaining).Perm remaining := by
  intro n
  induction n with
  | zero =>
    intro last remaining h
    have hnil : remaining = [] := List.eq_nil_of_length_eq_zero (Nat.le_zero.mp h)
    subst hnil
    rw [nnLoop]
    simp
  | succ n ih =>
    intro last remaining h
    by_cases hnil : remaining = []
    · subst hnil
      rw [nnLoop]
      simp
    · rw [nnLoop, if_neg hnil]
      have hi := nearestIdx_lt dist last remaining hnil
      rw [dif_pos hi]
      have hperm : (nnLoop dist (remaining.get ⟨nearestIdx dist last remaining, hi⟩)
          (remaining.eraseIdx (nearestIdx dist last remaining))).Perm
          (remaining.eraseIdx (nearestIdx dist last remaining)) := by
        refine ih _ _ ?_
        rw [List.length_eraseIdx_of_lt hi]
        omega
      refine (hperm.cons _).trans ?_
      refine List.Perm.symm ?_
      refine (List.perm_cons_erase
        (List.get_mem remaining (nearestIdx dist last remaining) hi)).trans ?_
      exact List.Perm.cons _ (by simpa using List.erase_getElem hi)

/-- Decomposition of `optimizeRoute`: the output is a block of geocoded
deliveries (a permutation of the geocoded input) followed by the
non-geocoded input deliveries in their original relative order. -/
theorem optimizeRoute_decomp (dist : Coordinates → Coordinates → ℚ)
    (l : List RDelivery) :
    ∃ geo, optimizeRoute dist l = geo ++ l.filter (fun d => ! hasValidCoords d) ∧
      geo.Perm (l.filter hasValidCoords) ∧
      ∀ d ∈ geo, hasValidCoords d = true := by
  unfold optimizeRoute
  by_cases hlen : l.length ≤ 1
  · rw [if_pos hlen]
    match l with
    | [] => exact ⟨[], by simp⟩
    | [d] =>
      cases hv : hasValidCoords d with
      | false => exact ⟨[], by simp [hv]⟩
      | true =>
        refine ⟨[d], by simp [hv], by simp [hv], ?_⟩
        intro x hx
        rw [List.mem_singleton] at hx
        rw [hx]
        exact hv
    | _ :: _ :: _ => simp at hlen
  · rw [if_neg hlen]
    by_cases hwc : (l.filter hasValidCoords).length ≤ 1
    · rw [if_pos hwc]
      refine ⟨l.filter hasValidCoords, rfl, List.Perm.refl _, ?_⟩
      intro d hd
      exact List.of_mem_filter hd
    · rw [if_neg hwc]
      match hfc : l.filter hasValidCoords with
      | [] => rw [hfc] at hwc; simp at hwc
      | first :: rest =>
        refine ⟨first :: nnLoop dist first rest, rfl, ?_, ?_⟩
        · exact (nnLoop_perm dist rest.length first rest le_rfl).cons first
        · intro d hd
          have : d ∈ l.filter hasValidCoords := by
            rw [hfc]
            rcases List.mem_cons.mp hd with h | h
            · rw [h]; exact List.mem_cons_self _ _
            · exact List.mem_cons_of_mem _
                ((nnLoop_perm dist rest.length first rest le_rfl).mem_iff.mp h)
          exact List.of_mem_filter this

/-- C6: `optimizeRoute` returns a permutation of exactly its input; an
input of zero or one delivery is returned as-is and its total distance is
0; and the non-geocoded deliveries appear after all geocoded ones, in
their original relative order — for every distance function. -/
theorem optimizeRoute_spec (dist : Coordinates → Coordinates → ℚ)
    (l : List RDelivery) :
    (optimizeRoute dist l).Perm l ∧
    (l.length ≤ 1 → optimizeRoute dist l = l ∧ calculateTotalDistance dist l = 0) ∧
    ∃ geo, optimizeRoute dist l = geo ++ l.filter (fun d => ! hasValidCoords d) ∧
      geo.Perm (l.filter hasValidCoords) ∧
      ∀ d ∈ geo, hasValidCoords d = true := by
  obtain ⟨geo, heq, hperm, hvalid⟩ := optimizeRoute_decomp dist l
  refine ⟨?_, ?_, geo, heq, hperm, hvalid⟩
  · rw [heq]
    exact (hperm.append_right _).trans (List.filter_append_perm _ l)
  · intro hlen
    refine ⟨by rw [optimizeRoute, if_pos hlen], ?_⟩
    match l with
    | [] => rfl
    | [d] => rfl
    | _ :: _ :: _ => simp at hlen

/-- C6 witness: on the concrete three-stop input the route is a
permutation, and the singleton input comes back unchanged with distance
0. -/
theorem optimizeRoute_spec_witness :
    (optimizeRoute sqDist [rdB, rdA, rdC]).Perm [rdB, rdA, rdC] ∧
    optimizeRoute sqDist [rdA] = [rdA] ∧
    calculateTotalDistance sqDist [rdA] = 0 :=
  ⟨(optimizeRoute_spec sqDist [rdB, rdA, rdC]).1,
   ((optimizeRoute_spec sqDist [rdA]).2.1 (by decide)).1,
   ((optimizeRoute_spec sqDist [rdA]).2.1 (by decide)).2⟩

/-- C9: the geocoding test is JS truthiness, so a latitude or longitude
equal to `0` (or an absent coordinates object) marks a delivery
non-geocoded; every such delivery is excluded from the nearest-neighbour
tour and appended after the geocoded block, which contains only
truthiness-geocoded deliveries. -/
theorem optimizeRoute_zero_coords (dist : Coordinates → Coordinates → ℚ)
    (l : List RDelivery) :
    (∀ d : RDelivery, hasValidCoords d = false ↔
      d.address.coordinates = none ∨
      ∃ c, d.address.coordinates = some c ∧ (c.lat = 0 ∨ c.lng = 0)) ∧
    ∃ geo, optimizeRoute dist l = geo ++ l.filter (fun d => ! hasValidCoords d) ∧
      (∀ d ∈ geo, hasValidCoords d = true) ∧
      ∀ d ∈ l, hasValidCoords d = false →
        d ∉ geo ∧ d ∈ l.filter (fun d => ! hasValidCoords d) := by
  obtain ⟨geo, heq, _, hvalid⟩ := optimizeRoute_decomp dist l
  refine ⟨?_, geo, heq, hvalid, ?_⟩
  · intro d
    cases hc : d.address.coordinates with
    | none => simp [hasValidCoords, hc]
    | some c =>
      simp only [hasValidCoords, hc]
      constructor
      · intro h
        refine Or.inr ⟨c, rfl, ?_⟩
        by_contra hno
        push_neg at hno
        simp [hno.1, hno.2] at h
      · rintro (h | ⟨c', hc', h⟩)
        · exact absurd h (by simp)
        · cases hc'
          rcases h with h | h <;> simp [h]
  · intro d hd hfalse
    refine ⟨fun hmem => ?_, ?_⟩
    · rw [hvalid d hmem] at hfalse
      exact Bool.true_eq_false.mp hfalse
    · rw [List.mem_filter]
      exact ⟨hd, by rw [hfalse]; rfl⟩

/-- C9 witness: the stop `rdB` with latitude `0` is classified
non-geocoded and lands after the geocoded block. -/
theorem optimizeRoute_zero_coords_witness :
    hasValidCoords rdB = false ∧
    ∃ geo, optimizeRoute sqDist [rdB, rdA, rdC] =
        geo ++ [rdB] ∧ rdB ∉ geo := by
  obtain ⟨hiff, geo, heq, _, hzero⟩ :=
    optimizeRoute_zero_coords sqDist [rdB, rdA, rdC]
  have hB : hasValidCoords rdB = false :=
    (hiff rdB).mpr (Or.inr ⟨⟨0, 5⟩, rfl, Or.inl rfl⟩)
  obtain ⟨hnot, _⟩ := hzero rdB (by decide) hB
  refine ⟨hB, geo, ?_, hnot⟩
  rw [heq]
  rfl

end Milk
